import Mathlib

/-
  Verification development for the delegated SPL-token transfer handler
  (`process_instruction` in src/lib.rs).

  The handler is shallowly embedded below: public keys are natural numbers,
  account data are byte lists (naturals), fallible operations return
  `Except ProgramError`.  The handler itself (`process_instruction`) is
  translated line-for-line from src/lib.rs.  The parts the repository treats
  as external collaborators — the address-derivation primitive and the
  external token-accounting service (the SPL token program), whose sources
  are not part of this repository — are modelled from the specification and
  carry `Modelled from the spec:` doc comments.
-/

set_option maxRecDepth 1000000

deriving instance DecidableEq for Except

namespace SolanaTransfer

/-- Byte contents of the literal seed b"authority" used at src/lib.rs:54. -/
def authoritySeed : List Nat := [97, 117, 116, 104, 111, 114, 105, 116, 121]

/-- Modelled from the spec: the fixed identity of the external
token-accounting service (the SPL token program id), an arbitrary but fixed
address constant of the execution environment. -/
def tokenServiceId : Nat := 777

/-- An account reference as the runtime hands it to the handler: its address,
its transaction-signer flag, its owning program, and its raw data bytes.
Mirrors the fields of `AccountInfo` that the embedded code can observe. -/
structure AccountInfo where
  key : Nat
  is_signer : Bool
  owner : Nat
  data : List Nat
deriving DecidableEq, Repr

/-- Modelled from the spec: a deterministic one-way style mixing function on
seed material and a program identity, standing in for the hash construction
underlying program-derived addresses.  Only determinism matters for the
claims; the concrete mixing is arbitrary. -/
def seedHash (seeds : List (List Nat)) (programId : Nat) : Nat :=
  (seeds.foldl (fun a s => s.foldl (fun b c => b * 257 + c + 1) (a * 263 + 5)) 1)
    * (2 * programId + 1)

/-- Modelled from the spec: `create_program_address` — map full seed material
(including the disambiguation byte) plus the Handler Identity to a single
address.  Reduced modulo 2^256 so every derived address fits in the 32-byte
address space. -/
def create_program_address (seeds : List (List Nat)) (programId : Nat) : Nat :=
  seedHash seeds programId % (2 ^ 256)

/-- Modelled from the spec: the disambiguation byte ("bump") selected during
derivation; a deterministic function of the same inputs. -/
def bumpOf (seeds : List (List Nat)) (programId : Nat) : Nat :=
  255 - seedHash seeds programId % 8

/-- Modelled from the spec: `find_program_address` — derive the
`(derivedAddress, disambiguationByte)` pair from seed material and the
Handler Identity, with the address obtained by extending the seeds with the
chosen disambiguation byte. -/
def find_program_address (seeds : List (List Nat)) (programId : Nat) : Nat × Nat :=
  (create_program_address (seeds ++ [[bumpOf seeds programId]]) programId,
   bumpOf seeds programId)

/-- Little-endian byte encoding of a natural, `len` bytes. -/
def encodeLE (n : Nat) : Nat → List Nat
  | 0 => []
  | len + 1 => n % 256 :: encodeLE (n / 256) len

/-- Little-endian byte decoding. -/
def decodeLE (bytes : List Nat) : Nat :=
  bytes.foldr (fun b a => b + 256 * a) 0

/-- The `len`-byte slice of `data` starting at offset `off`. -/
def sliceOf (data : List Nat) (off len : Nat) : List Nat :=
  (data.drop off).take len

/-- Error values surfaced by an invocation.  The first four are the
`ProgramError` values the handler code can return
(`NotEnoughAccountKeys`, `InvalidSeeds`, `InvalidAccountData`,
`UninitializedAccount`); the last two are rejections of the external
token-accounting service, modelled from the spec's error taxonomy. -/
inductive RejectReason where
  | insufficientBalance
  | precisionMismatch
  | frozenHolding
  | wrongOwningService
  | mintMismatch
  | ownerMismatch
deriving DecidableEq, Repr

inductive ProgramError where
  | notEnoughAccountKeys
  | invalidSeeds
  | invalidAccountData
  | uninitializedAccount
  | delegationRejected
  | transferRejected (reason : RejectReason)
deriving DecidableEq, Repr

/-- The fields of a token holding record that the model reads: the token
class it belongs to, the authority that custodies it, its balance, and its
state byte (0 = uninitialized, 1 = initialized, 2 = frozen). -/
structure Holding where
  mintField : Nat
  ownerField : Nat
  amount : Nat
  state : Nat
deriving DecidableEq, Repr

/-- The field of a token-class descriptor that the model reads. -/
structure MintState where
  decimals : Nat
deriving DecidableEq, Repr

/-- Modelled from the spec: `decode(holdingAccount) → validity` for the
external service's 165-byte holding layout (class at offset 0, custodian at
32, balance at 64, state byte at 108).  Fails on wrong size or a bad state
byte with invalid-account-data, and on an uninitialized record with
uninitialized-account. -/
def unpackHolding (data : List Nat) : Except ProgramError Holding :=
  if data.length = 165 then
    if (data.drop 108).headD 0 = 0 then .error .uninitializedAccount
    else if (data.drop 108).headD 0 = 1 ∨ (data.drop 108).headD 0 = 2 then
      .ok ⟨decodeLE (sliceOf data 0 32), decodeLE (sliceOf data 32 32),
           decodeLE (sliceOf data 64 8), (data.drop 108).headD 0⟩
    else .error .invalidAccountData
  else .error .invalidAccountData

/-- Modelled from the spec: `decode(tokenClassAccount) → precision` for the
external service's 82-byte token-class layout (precision at offset 44,
initialization flag at 45).  Fails on wrong size or a bad flag with
invalid-account-data, and on an uninitialized descriptor with
uninitialized-account. -/
def unpackMint (data : List Nat) : Except ProgramError MintState :=
  if data.length = 82 then
    if (data.drop 45).headD 0 = 0 then .error .uninitializedAccount
    else if (data.drop 45).headD 0 = 1 then .ok ⟨(data.drop 44).headD 0⟩
    else .error .invalidAccountData
  else .error .invalidAccountData

/-- A Transfer Request bound for the external token-accounting service,
naming the service, the source, token-class, destination and authority
accounts, and carrying the amount and precision. -/
structure TransferCheckedInstr where
  tokenProgram : Nat
  source : Nat
  mint : Nat
  destination : Nat
  authority : Nat
  amount : Nat
  decimals : Nat
deriving DecidableEq, Repr

/-- Construct the transfer request, mirroring the argument order of
`spl_token::instruction::transfer_checked` at src/lib.rs:85-94. -/
def transfer_checked (token_program_id source mint destination authority : Nat)
    (amount decimals : Nat) : TransferCheckedInstr :=
  ⟨token_program_id, source, mint, destination, authority, amount, decimals⟩

/-- The handler, translated from `process_instruction` in src/lib.rs:34-108.
It consumes the first five account references (failing with
not-enough-account-keys as `next_account_info` does), re-derives the
expected authority from the fixed seed and the program id, rejects a
mismatching claimed authority with invalid-seeds, decodes the source holding
and then the token-class descriptor, and finally returns the transfer
request it submits together with the signer seeds it presents
(seed bytes plus disambiguation byte). -/
def process_instruction (program_id : Nat) (accounts : List AccountInfo)
    (_instruction_data : List Nat) :
    Except ProgramError (TransferCheckedInstr × List (List Nat)) :=
  match accounts with
  | source_info :: mint_info :: destination_info :: authority_info ::
      token_program_info :: _ =>
    let pa := find_program_address [authoritySeed] program_id
    if pa.1 ≠ authority_info.key then
      .error .invalidSeeds
    else
      match unpackHolding source_info.data with
      | .error e => .error e
      | .ok _source_account =>
        match unpackMint mint_info.data with
        | .error e => .error e
        | .ok mint =>
          .ok (transfer_checked token_program_info.key source_info.key
                 mint_info.key destination_info.key authority_info.key
                 10000 mint.decimals,
               [authoritySeed, [pa.2]])
  | _ => .error .notEnoughAccountKeys

/-- Raw data of the first account in the set with the given address. -/
def lookupData (accounts : List AccountInfo) (k : Nat) : Option (List Nat) :=
  match accounts with
  | [] => none
  | a :: rest => if a.key = k then some a.data else lookupData rest k

/-- Overwrite the 8-byte balance field of a holding's data. -/
def setAmount (data : List Nat) (amt : Nat) : List Nat :=
  data.take 64 ++ encodeLE amt 8 ++ data.drop 72

/-- Apply `f` to the balance of the first account with address `k`. -/
def adjustFirst (accounts : List AccountInfo) (k : Nat) (f : Nat → Nat) :
    List AccountInfo :=
  match accounts with
  | [] => []
  | a :: rest =>
    if a.key = k then
      ⟨a.key, a.is_signer, a.owner,
       setAmount a.data (f (decodeLE (sliceOf a.data 64 8)))⟩ :: rest
    else a :: adjustFirst rest k f

/-- Move `amount` from the holding at `src` to the holding at `dst`. -/
def applyTransfer (accounts : List AccountInfo) (src dst amount : Nat) :
    List AccountInfo :=
  adjustFirst (adjustFirst accounts src (fun x => x - amount)) dst
    (fun x => x + amount)

/-- Modelled from the spec: the external token-accounting service's checks on
a submitted Transfer Request.  It rejects a request not addressed to the
service, re-derives the authority address from the presented seed material
and the Handler Identity and rejects a mismatch with the claimed authority
(delegation-rejected), decodes the named source, token-class and destination
accounts, and refuses the transfer for its own domain reasons (class
mismatch, precision mismatch, frozen holding, wrong custodian, insufficient
balance).  Returns `none` when every check passes. -/
def checkTransfer (handlerId : Nat) (accounts : List AccountInfo)
    (instr : TransferCheckedInstr) (proofSeeds : List (List Nat)) :
    Option ProgramError :=
  if instr.tokenProgram ≠ tokenServiceId then
    some (.transferRejected .wrongOwningService)
  else if create_program_address proofSeeds handlerId ≠ instr.authority then
    some .delegationRejected
  else
    match lookupData accounts instr.source with
    | none => some .invalidAccountData
    | some srcData =>
      match unpackHolding srcData with
      | .error e => some e
      | .ok source =>
        match lookupData accounts instr.mint with
        | none => some .invalidAccountData
        | some mintData =>
          match unpackMint mintData with
          | .error e => some e
          | .ok mintState =>
            match lookupData accounts instr.destination with
            | none => some .invalidAccountData
            | some dstData =>
              match unpackHolding dstData with
              | .error e => some e
              | .ok dest =>
                if source.mintField ≠ instr.mint ∨ dest.mintField ≠ instr.mint then
                  some (.transferRejected .mintMismatch)
                else if instr.decimals ≠ mintState.decimals then
                  some (.transferRejected .precisionMismatch)
                else if source.state = 2 ∨ dest.state = 2 then
                  some (.transferRejected .frozenHolding)
                else if source.ownerField ≠ instr.authority then
                  some (.transferRejected .ownerMismatch)
                else if source.amount < instr.amount then
                  some (.transferRejected .insufficientBalance)
                else none

/-- One whole invocation: run the handler; on success submit the constructed
Transfer Request to the external service, which either rejects it or applies
the balance movement.  Returns the resulting account set together with the
error, if any; on every failure path the account set is the caller's,
untouched, reflecting the host environment's atomic rollback. -/
def runInvocation (program_id : Nat) (accounts : List AccountInfo)
    (instruction_data : List Nat) : List AccountInfo × Option ProgramError :=
  match process_instruction program_id accounts instruction_data with
  | .error e => (accounts, some e)
  | .ok (instr, seeds) =>
    match checkTransfer program_id accounts instr seeds with
    | some e => (accounts, some e)
    | none => (applyTransfer accounts instr.source instr.destination instr.amount, none)

/-- Balance of the first account with address `k`, read from its data. -/
def balanceOf (accounts : List AccountInfo) (k : Nat) : Option Nat :=
  (lookupData accounts k).map (fun d => decodeLE (sliceOf d 64 8))

/-- Stage one of the pipeline in isolation: consume exactly five account
references, mirroring the five `next_account_info` calls at
src/lib.rs:43-51. -/
def extractAccounts (accounts : List AccountInfo) :
    Except ProgramError
      (AccountInfo × AccountInfo × AccountInfo × AccountInfo × AccountInfo) :=
  match accounts with
  | s :: m :: d :: a :: t :: _ => .ok (s, m, d, a, t)
  | _ => .error .notEnoughAccountKeys

/-- Stage two of the pipeline in isolation: the authority derivation of
src/lib.rs:54. -/
def deriveAuthority (program_id : Nat) : Nat × Nat :=
  find_program_address [authoritySeed] program_id

/-- Stage three of the pipeline in isolation: the authority comparison of
src/lib.rs:57-60, yielding the disambiguation byte on success. -/
def validateAuthority (program_id : Nat) (authority_info : AccountInfo) :
    Except ProgramError Nat :=
  if (deriveAuthority program_id).1 ≠ authority_info.key then .error .invalidSeeds
  else .ok (deriveAuthority program_id).2

/-- Stage four of the pipeline in isolation: the two decodes of
src/lib.rs:63-68, source holding first, token-class descriptor second. -/
def decodeInputs (source_info mint_info : AccountInfo) :
    Except ProgramError (Holding × MintState) :=
  match unpackHolding source_info.data with
  | .error e => .error e
  | .ok h =>
    match unpackMint mint_info.data with
    | .error e => .error e
    | .ok m => .ok (h, m)

/-- Modelled from the spec: the handler as section 4.1 orders its steps, with
the token-class descriptor (step 4) decoded before the source holding
(step 5).  Written from the spec's words for comparison against
`process_instruction`, which is translated from the code. -/
def specOrderHandler (program_id : Nat) (accounts : List AccountInfo)
    (_instruction_data : List Nat) :
    Except ProgramError (TransferCheckedInstr × List (List Nat)) :=
  match extractAccounts accounts with
  | .error e => .error e
  | .ok (s, m, d, a, t) =>
    match validateAuthority program_id a with
    | .error e => .error e
    | .ok bump =>
      match unpackMint m.data with
      | .error e => .error e
      | .ok ms =>
        match unpackHolding s.data with
        | .error e => .error e
        | .ok _h =>
          .ok (transfer_checked t.key s.key m.key d.key a.key 10000 ms.decimals,
               [authoritySeed, [bump]])

/-- The same account references with every transaction-signer flag cleared. -/
def stripSigners (accounts : List AccountInfo) : List AccountInfo :=
  accounts.map (fun a => ⟨a.key, false, a.owner, a.data⟩)

/-- Token-holding data bytes with the given class, custodian, balance and
state, in the service's 165-byte layout. -/
def mkAccountData (mint owner amount state : Nat) : List Nat :=
  encodeLE mint 32 ++ encodeLE owner 32 ++ encodeLE amount 8 ++
    List.replicate 36 0 ++ [state] ++ List.replicate 56 0

/-- Token-class descriptor bytes with the given precision and initialization
flag, in the service's 82-byte layout. -/
def mkMintData (decimals init : Nat) : List Nat :=
  List.replicate 44 0 ++ [decimals, init] ++ List.replicate 36 0

/-- The derived authority address for the example Handler Identity 11. -/
def cKey : Nat := (find_program_address [authoritySeed] 11).1

/-- Example source holding: address 1, class 2, custodied by the derived
authority, balance 20000. -/
def cs : AccountInfo := ⟨1, false, 0, mkAccountData 2 cKey 20000 1⟩

/-- Example token-class descriptor: address 2, precision 9, initialized. -/
def cm : AccountInfo := ⟨2, false, 0, mkMintData 9 1⟩

/-- Example destination holding: address 3, class 2, also custodied by the
derived authority, balance 20000. -/
def cd : AccountInfo := ⟨3, false, 0, mkAccountData 2 cKey 20000 1⟩

/-- Example claimed-authority account at the derived address. -/
def ca : AccountInfo := ⟨cKey, false, 0, []⟩

/-- Example reference to the external token-accounting service. -/
def ct : AccountInfo := ⟨tokenServiceId, false, 0, []⟩

/-- The derived authority address for the example Handler Identity 9, used by
the decode-failure examples. -/
def dKey : Nat := (find_program_address [authoritySeed] 9).1

/-- Claimed-authority account for Handler Identity 9. -/
def da : AccountInfo := ⟨dKey, false, 0, []⟩

/-- An invocation outcome the spec's order-sensitivity property allows for a
perturbed account set: a decode failure, the authority rejection, or a
rejection by the external service. -/
def denied (r : List AccountInfo × Option ProgramError) : Prop :=
  r.2 = some .invalidSeeds ∨ r.2 = some .invalidAccountData ∨
    r.2 = some .uninitializedAccount ∨
    ∃ rr, r.2 = some (.transferRejected rr)

lemma unpackHolding_ok_length (x : List Nat) (h : Holding)
    (hx : unpackHolding x = .ok h) : x.length = 165 := by
  unfold unpackHolding at hx
  split at hx
  · assumption
  · exact absurd hx (by simp)

lemma unpackMint_ok_length (x : List Nat) (ms : MintState)
    (hx : unpackMint x = .ok ms) : x.length = 82 := by
  unfold unpackMint at hx
  split at hx
  · assumption
  · exact absurd hx (by simp)

lemma unpackHolding_wrong_len (x : List Nat) (hx : x.length ≠ 165) :
    unpackHolding x = .error .invalidAccountData := by
  simp [unpackHolding, hx]

lemma unpackMint_wrong_len (x : List Nat) (hx : x.length ≠ 82) :
    unpackMint x = .error .invalidAccountData := by
  simp [unpackMint, hx]

lemma unpackHolding_error_cases (x : List Nat) (e : ProgramError)
    (h : unpackHolding x = .error e) :
    e = .invalidAccountData ∨ e = .uninitializedAccount := by
  unfold unpackHolding at h
  split at h
  · split at h
    · injection h with h
      exact .inr h.symm
    · split at h
      · exact absurd h (by simp)
      · injection h with h
        exact .inl h.symm
  · injection h with h
    exact .inl h.symm

lemma unpackMint_error_cases (x : List Nat) (e : ProgramError)
    (h : unpackMint x = .error e) :
    e = .invalidAccountData ∨ e = .uninitializedAccount := by
  unfold unpackMint at h
  split at h
  · split at h
    · injection h with h
      exact .inr h.symm
    · split at h
      · exact absurd h (by simp)
      · injection h with h
        exact .inl h.symm
  · injection h with h
    exact .inl h.symm

lemma create_fpa (pid : Nat) :
    create_program_address
        [authoritySeed, [(find_program_address [authoritySeed] pid).2]] pid
      = (find_program_address [authoritySeed] pid).1 := rfl

lemma lookupData_append (l₁ l₂ : List AccountInfo) (k : Nat)
    (h : (lookupData l₁ k).isSome) :
    lookupData (l₁ ++ l₂) k = lookupData l₁ k := by
  induction l₁ with
  | nil => simp [lookupData] at h
  | cons a rest ih =>
    simp only [List.cons_append, lookupData]
    by_cases hk : a.key = k
    · simp [hk]
    · simp only [lookupData, if_neg hk] at h ⊢
      exact ih h

lemma lookupData_mem (l : List AccountInfo) (x : AccountInfo) (hx : x ∈ l) :
    (lookupData l x.key).isSome := by
  induction l with
  | nil => cases hx
  | cons a rest ih =>
    by_cases hk : a.key = x.key
    · simp [lookupData, hk]
    · simp only [lookupData, if_neg hk]
      rcases List.mem_cons.mp hx with h | h
      · exact absurd (h ▸ rfl) hk
      · exact ih h

lemma runInvocation_error_frame (pid : Nat) (accounts : List AccountInfo)
    (data : List Nat) (h : (runInvocation pid accounts data).2.isSome) :
    (runInvocation pid accounts data).1 = accounts := by
  unfold runInvocation at h ⊢
  cases hp : process_instruction pid accounts data with
  | error e => simp [hp]
  | ok v =>
    obtain ⟨instr, seeds⟩ := v
    cases hc : checkTransfer pid accounts instr seeds with
    | none => simp [hp, hc] at h
    | some e => simp [hp, hc]

lemma runInvocation_err (pid : Nat) (accounts : List AccountInfo)
    (data : List Nat) (e : ProgramError)
    (hp : process_instruction pid accounts data = .error e) :
    runInvocation pid accounts data = (accounts, some e) := by
  unfold runInvocation
  rw [hp]

lemma runInvocation_ok (pid : Nat) (accounts : List AccountInfo)
    (data : List Nat) (instr : TransferCheckedInstr) (seeds : List (List Nat))
    (hp : process_instruction pid accounts data = .ok (instr, seeds)) :
    runInvocation pid accounts data
      = (match checkTransfer pid accounts instr seeds with
         | some e => (accounts, some e)
         | none => (applyTransfer accounts instr.source instr.destination
                      instr.amount, none)) := by
  unfold runInvocation
  rw [hp]

/-- C1: with at least five account references supplied, if the
claimed-authority reference (position 4) does not carry the address derived
from the seed "authority" and the program id, the handler fails with the
invalid-authority error (`InvalidSeeds`) regardless of every account's data,
and the invocation performs no further action: no transfer is submitted and
the account set is returned untouched. -/
theorem C1_invalid_authority (pid : Nat) (s m d a t : AccountInfo)
    (rest : List AccountInfo) (data : List Nat)
    (h : a.key ≠ (find_program_address [authoritySeed] pid).1) :
    process_instruction pid (s :: m :: d :: a :: t :: rest) data
      = .error .invalidSeeds ∧
    runInvocation pid (s :: m :: d :: a :: t :: rest) data
      = (s :: m :: d :: a :: t :: rest, some .invalidSeeds) := by
  have h' : (find_program_address [authoritySeed] pid).1 ≠ a.key := Ne.symm h
  have hp : process_instruction pid (s :: m :: d :: a :: t :: rest) data
      = .error .invalidSeeds := by
    simp [process_instruction, h']
  exact ⟨hp, runInvocation_err _ _ _ _ hp⟩

/-- Witness for C1 at a concrete input: authority address 0 instead of the
derived address for Handler Identity 9. -/
theorem C1_invalid_authority_w :
    process_instruction 9 (cs :: cm :: cd :: ⟨0, false, 0, []⟩ :: ct :: []) []
      = .error .invalidSeeds ∧
    runInvocation 9 (cs :: cm :: cd :: ⟨0, false, 0, []⟩ :: ct :: []) []
      = (cs :: cm :: cd :: ⟨0, false, 0, []⟩ :: ct :: [], some .invalidSeeds) :=
  C1_invalid_authority 9 cs cm cd ⟨0, false, 0, []⟩ ct [] [] (by decide)

/-- C2: whenever the claimed authority matches the derived address and both
decodes succeed, the handler returns exactly one transfer request naming the
service reference, source, token class, destination and claimed authority by
their positions, carrying the fixed amount 10000 and the decoded precision,
together with the delegation proof: the seed "authority" plus the
derivation's disambiguation byte. -/
theorem C2_transfer_request (pid : Nat) (s m d a t : AccountInfo)
    (rest : List AccountInfo) (data : List Nat) (h : Holding) (ms : MintState)
    (ha : a.key = (find_program_address [authoritySeed] pid).1)
    (hs : unpackHolding s.data = .ok h)
    (hm : unpackMint m.data = .ok ms) :
    process_instruction pid (s :: m :: d :: a :: t :: rest) data
      = .ok (transfer_checked t.key s.key m.key d.key a.key 10000 ms.decimals,
             [authoritySeed, [(find_program_address [authoritySeed] pid).2]]) := by
  simp [process_instruction, ha, hs, hm]

/-- Witness for C2 at the concrete example account set for Handler
Identity 11. -/
theorem C2_transfer_request_w :
    process_instruction 11 (cs :: cm :: cd :: ca :: ct :: []) []
      = .ok (transfer_checked ct.key cs.key cm.key cd.key ca.key 10000 9,
             [authoritySeed, [(find_program_address [authoritySeed] 11).2]]) :=
  C2_transfer_request 11 cs cm cd ca ct [] [] ⟨cm.key, ca.key, 20000, 1⟩ ⟨9⟩
    (by decide) (by decide) (by decide)

/-- C3: whenever an invocation fails — for any failure kind — the account
set comes back exactly as supplied, so no token balance anywhere changes;
the handler mutates nothing before the external-service call and the service
applies the movement all-or-nothing. -/
theorem C3_atomic_failure (pid : Nat) (accounts : List AccountInfo)
    (data : List Nat) (e : ProgramError)
    (h : (runInvocation pid accounts data).2 = some e) :
    (runInvocation pid accounts data).1 = accounts ∧
    ∀ k, balanceOf (runInvocation pid accounts data).1 k
           = balanceOf accounts k := by
  have hframe : (runInvocation pid accounts data).1 = accounts :=
    runInvocation_error_frame pid accounts data (by simp [h])
  exact ⟨hframe, fun k => by rw [hframe]⟩

/-- Witness for C3: the empty account set fails with the missing-account
error and is returned untouched. -/
theorem C3_atomic_failure_w :
    (runInvocation 0 ([] : List AccountInfo) []).1 = [] :=
  (C3_atomic_failure 0 [] [] .notEnoughAccountKeys (by decide)).1

/-- C4: authority derivation is deterministic — any two invocations with the
same Handler Identity derive the identical (address, disambiguation byte)
pair, and the whole invocation result for the same account set is identical
in every run. -/
theorem C4_deterministic (pid pid' : Nat) (h : pid = pid') :
    find_program_address [authoritySeed] pid
      = find_program_address [authoritySeed] pid' ∧
    ∀ accounts data, runInvocation pid accounts data
      = runInvocation pid' accounts data := by
  subst h
  exact ⟨rfl, fun _ _ => rfl⟩

/-- Witness for C4 at Handler Identity 5. -/
theorem C4_deterministic_w :
    find_program_address [authoritySeed] 5 = find_program_address [authoritySeed] 5 :=
  (C4_deterministic 5 5 rfl).1

lemma process_shape_ok (pid : Nat) (s m d a t : AccountInfo)
    (rest : List AccountInfo) (data : List Nat) (h : Holding) (ms : MintState)
    (ha : (find_program_address [authoritySeed] pid).1 = a.key)
    (hs : unpackHolding s.data = .ok h)
    (hm : unpackMint m.data = .ok ms) :
    process_instruction pid (s :: m :: d :: a :: t :: rest) data
      = .ok (transfer_checked t.key s.key m.key d.key a.key 10000 ms.decimals,
             [authoritySeed, [(find_program_address [authoritySeed] pid).2]]) := by
  simp [process_instruction, ha, hs, hm]

lemma checkTransfer_append (pid : Nat) (s m d a t : AccountInfo)
    (rest : List AccountInfo) (instr : TransferCheckedInstr)
    (seeds : List (List Nat))
    (h1 : instr.source = s.key) (h2 : instr.mint = m.key)
    (h3 : instr.destination = d.key) :
    checkTransfer pid (s :: m :: d :: a :: t :: rest) instr seeds
      = checkTransfer pid [s, m, d, a, t] instr seeds := by
  have l5 : (s :: m :: d :: a :: t :: rest) = [s, m, d, a, t] ++ rest := rfl
  have e1 : lookupData (s :: m :: d :: a :: t :: rest) instr.source
      = lookupData [s, m, d, a, t] instr.source := by
    rw [l5]
    exact lookupData_append _ _ _ (by rw [h1]; exact lookupData_mem _ s (by simp))
  have e2 : lookupData (s :: m :: d :: a :: t :: rest) instr.mint
      = lookupData [s, m, d, a, t] instr.mint := by
    rw [l5]
    exact lookupData_append _ _ _ (by rw [h2]; exact lookupData_mem _ m (by simp))
  have e3 : lookupData (s :: m :: d :: a :: t :: rest) instr.destination
      = lookupData [s, m, d, a, t] instr.destination := by
    rw [l5]
    exact lookupData_append _ _ _ (by rw [h3]; exact lookupData_mem _ d (by simp))
  unfold checkTransfer
  rw [e1, e2, e3]

/-- C5: with fewer than five account references the handler fails with the
missing-account error (`NotEnoughAccountKeys`), no matter the program id or
any account's contents; and appending extra references after the fifth
changes neither the handler's returned request nor the invocation's
outcome. -/
theorem C5_five_accounts (pid : Nat) (accounts : List AccountInfo)
    (data : List Nat) (s m d a t : AccountInfo) (rest : List AccountInfo)
    (hlt : accounts.length < 5) :
    process_instruction pid accounts data = .error .notEnoughAccountKeys ∧
    process_instruction pid (s :: m :: d :: a :: t :: rest) data
      = process_instruction pid [s, m, d, a, t] data ∧
    (runInvocation pid (s :: m :: d :: a :: t :: rest) data).2
      = (runInvocation pid [s, m, d, a, t] data).2 := by
  refine ⟨?_, rfl, ?_⟩
  · rcases accounts with _ | ⟨x1, _ | ⟨x2, _ | ⟨x3, _ | ⟨x4, _ | ⟨x5, r⟩⟩⟩⟩⟩
    · rfl
    · rfl
    · rfl
    · rfl
    · rfl
    · exfalso
      simp only [List.length_cons] at hlt
      omega
  · by_cases hv : (find_program_address [authoritySeed] pid).1 ≠ a.key
    · have h1 : process_instruction pid (s :: m :: d :: a :: t :: rest) data
          = .error .invalidSeeds := by simp [process_instruction, hv]
      have h2 : process_instruction pid [s, m, d, a, t] data
          = .error .invalidSeeds := by simp [process_instruction, hv]
      rw [runInvocation_err _ _ _ _ h1, runInvocation_err _ _ _ _ h2]
    · have he : (find_program_address [authoritySeed] pid).1 = a.key :=
        of_not_not hv
      cases hs : unpackHolding s.data with
      | error e =>
        have h1 : process_instruction pid (s :: m :: d :: a :: t :: rest) data
            = .error e := by simp [process_instruction, he, hs]
        have h2 : process_instruction pid [s, m, d, a, t] data = .error e := by
          simp [process_instruction, he, hs]
        rw [runInvocation_err _ _ _ _ h1, runInvocation_err _ _ _ _ h2]
      | ok hh =>
        cases hm : unpackMint m.data with
        | error e =>
          have h1 : process_instruction pid (s :: m :: d :: a :: t :: rest) data
              = .error e := by simp [process_instruction, he, hs, hm]
          have h2 : process_instruction pid [s, m, d, a, t] data = .error e := by
            simp [process_instruction, he, hs, hm]
          rw [runInvocation_err _ _ _ _ h1, runInvocation_err _ _ _ _ h2]
        | ok mm =>
          have h1 := process_shape_ok pid s m d a t rest data hh mm he hs hm
          have h2 := process_shape_ok pid s m d a t [] data hh mm he hs hm
          rw [runInvocation_ok _ _ _ _ _ h1, runInvocation_ok _ _ _ _ _ h2,
              checkTransfer_append pid s m d a t rest _ _ rfl rfl rfl]
          cases checkTransfer pid [s, m, d, a, t]
              (transfer_checked t.key s.key m.key d.key a.key 10000 mm.decimals)
              [authoritySeed, [(find_program_address [authoritySeed] pid).2]] with
          | none => rfl
          | some e => rfl

/-- Witness for C5: a three-account set fails with the missing-account error,
and an extra sixth reference does not change the outcome of the example
invocation. -/
theorem C5_five_accounts_w :
    process_instruction 11 [cs, cm, cd] [] = .error .notEnoughAccountKeys ∧
    process_instruction 11 (cs :: cm :: cd :: ca :: ct :: [da]) []
      = process_instruction 11 [cs, cm, cd, ca, ct] [] ∧
    (runInvocation 11 (cs :: cm :: cd :: ca :: ct :: [da]) []).2
      = (runInvocation 11 [cs, cm, cd, ca, ct] []).2 :=
  C5_five_accounts 11 [cs, cm, cd] [] cs cm cd ca ct [da] (by decide)

/-- Counterexample to C6 as stated: the two decode-failure kinds do not carry
distinct typed errors.  A malformed token-class descriptor (empty data at
position 2) and a malformed source holding (empty data at position 1) both
make the handler fail with the very same error value,
`InvalidAccountData`. -/
theorem C6_not_distinct_cx :
    process_instruction 9 [cs, ⟨2, false, 0, []⟩, cd, da, ct] []
      = .error .invalidAccountData ∧
    process_instruction 9 [⟨1, false, 0, []⟩, cm, cd, da, ct] []
      = .error .invalidAccountData := by decide

/-- C6 as amended: decode failures are surfaced, but untagged.  Whichever
decode fails first, the handler propagates the decode error itself (an
invalid-account-data or uninitialized-account value drawn from one shared
error space); a token-class decode failure and a source-holding decode
failure are not distinguished by distinct error types. -/
theorem C6_untagged_decode_errors (pid : Nat) (s m d a t : AccountInfo)
    (rest : List AccountInfo) (data : List Nat) (e : ProgramError)
    (ha : a.key = (find_program_address [authoritySeed] pid).1) :
    (unpackHolding s.data = .error e →
      process_instruction pid (s :: m :: d :: a :: t :: rest) data = .error e) ∧
    (∀ h : Holding, unpackHolding s.data = .ok h → unpackMint m.data = .error e →
      process_instruction pid (s :: m :: d :: a :: t :: rest) data = .error e) := by
  constructor
  · intro hs
    simp [process_instruction, ha, hs]
  · intro h hs hm
    simp [process_instruction, ha, hs, hm]

/-- Witness for C6 (amended) at concrete inputs: an empty source holding
propagates its invalid-account-data error, and with a decodable source an
empty token-class descriptor propagates the same error value. -/
theorem C6_untagged_decode_errors_w :
    process_instruction 9 (⟨1, false, 0, []⟩ :: cm :: cd :: da :: ct :: []) []
      = .error .invalidAccountData ∧
    process_instruction 9 (cs :: ⟨2, false, 0, []⟩ :: cd :: da :: ct :: []) []
      = .error .invalidAccountData :=
  ⟨(C6_untagged_decode_errors 9 ⟨1, false, 0, []⟩ cm cd da ct [] []
      .invalidAccountData (by decide)).1 (by decide),
   (C6_untagged_decode_errors 9 cs ⟨2, false, 0, []⟩ cd da ct [] []
      .invalidAccountData (by decide)).2 ⟨cm.key, ca.key, 20000, 1⟩
      (by decide) (by decide)⟩

/-- A five-account set whose source holding has malformed (empty) data while
its token-class descriptor is well-sized but uninitialized: the two decode
orders surface different errors on it. -/
def badOrderSet : List AccountInfo :=
  [⟨1, false, 0, []⟩, ⟨2, false, 0, mkMintData 0 0⟩, cd, da, ct]

/-- Counterexample to C7 as stated: the handler does not decode the
token-class descriptor before the source holding.  On `badOrderSet` the
spec's step order (descriptor first) would surface the descriptor's
uninitialized-account error, but the code decodes the source holding first
and surfaces its invalid-account-data error instead. -/
theorem C7_decode_order_cx :
    process_instruction 9 badOrderSet [] = .error .invalidAccountData ∧
    specOrderHandler 9 badOrderSet [] = .error .uninitializedAccount := by decide

lemma validateAuthority_error (pid : Nat) (a : AccountInfo) (e : ProgramError)
    (h : validateAuthority pid a = .error e) :
    (find_program_address [authoritySeed] pid).1 ≠ a.key ∧ e = .invalidSeeds := by
  unfold validateAuthority deriveAuthority at h
  split at h
  · refine ⟨by assumption, ?_⟩
    injection h with h
    exact h.symm
  · exact absurd h (by simp)

lemma validateAuthority_okk (pid : Nat) (a : AccountInfo) (bump : Nat)
    (h : validateAuthority pid a = .ok bump) :
    (find_program_address [authoritySeed] pid).1 = a.key ∧
      bump = (find_program_address [authoritySeed] pid).2 := by
  unfold validateAuthority deriveAuthority at h
  split at h
  · exact absurd h (by simp)
  · next hcond =>
    refine ⟨of_not_not hcond, ?_⟩
    injection h with h
    exact h.symm

lemma decodeInputs_error (s m : AccountInfo) (e : ProgramError)
    (h : decodeInputs s m = .error e) :
    unpackHolding s.data = .error e ∨
      ∃ hh, unpackHolding s.data = .ok hh ∧ unpackMint m.data = .error e := by
  unfold decodeInputs at h
  cases hs : unpackHolding s.data with
  | error e2 =>
    rw [hs] at h
    simp only [Except.error.injEq] at h
    exact .inl (congrArg Except.error h)
  | ok hh =>
    rw [hs] at h
    cases hm : unpackMint m.data with
    | error e2 =>
      rw [hm] at h
      simp only [Except.error.injEq] at h
      exact .inr ⟨hh, rfl, congrArg Except.error h⟩
    | ok mm =>
      rw [hm] at h
      exact absurd h (by simp)

lemma decodeInputs_okk (s m : AccountInfo) (hh : Holding) (ms : MintState)
    (h : decodeInputs s m = .ok (hh, ms)) :
    unpackHolding s.data = .ok hh ∧ unpackMint m.data = .ok ms := by
  unfold decodeInputs at h
  cases hs : unpackHolding s.data with
  | error e2 =>
    rw [hs] at h
    exact absurd h (by simp)
  | ok hh2 =>
    rw [hs] at h
    cases hm : unpackMint m.data with
    | error e2 =>
      rw [hm] at h
      exact absurd h (by simp)
    | ok mm2 =>
      rw [hm] at h
      simp only [Except.ok.injEq, Prod.mk.injEq] at h
      exact ⟨congrArg Except.ok h.1, congrArg Except.ok h.2⟩

/-- C7 as amended: the handler is the linear pipeline — extract the five
accounts, then derive and validate the authority, then decode the inputs
with the source holding decoded before the token-class descriptor, then
submit the request — where each stage's failure is returned immediately as
the invocation's result, and a failing invocation leaves the account set
untouched. -/
theorem C7_linear_pipeline (pid : Nat) (accounts : List AccountInfo)
    (data : List Nat) :
    (∀ e, extractAccounts accounts = .error e →
       process_instruction pid accounts data = .error e) ∧
    (∀ s m d a t, extractAccounts accounts = .ok (s, m, d, a, t) →
       (∀ e, validateAuthority pid a = .error e →
          process_instruction pid accounts data = .error e) ∧
       (∀ bump, validateAuthority pid a = .ok bump →
          (∀ e, decodeInputs s m = .error e →
             process_instruction pid accounts data = .error e) ∧
          (∀ hh ms, decodeInputs s m = .ok (hh, ms) →
             process_instruction pid accounts data
               = .ok (transfer_checked t.key s.key m.key d.key a.key
                        10000 ms.decimals,
                      [authoritySeed, [bump]])))) ∧
    (∀ e, (runInvocation pid accounts data).2 = some e →
       (runInvocation pid accounts data).1 = accounts) := by
  refine ⟨?_, ?_, fun e he => runInvocation_error_frame _ _ _ (by simp [he])⟩
  · intro e hx
    rcases accounts with _ | ⟨x1, _ | ⟨x2, _ | ⟨x3, _ | ⟨x4, _ | ⟨x5, r⟩⟩⟩⟩⟩ <;>
      first
      | (injection hx with hx; rw [← hx]; rfl)
      | exact absurd hx (by simp [extractAccounts])
  · intro s m d a t hx
    rcases accounts with _ | ⟨x1, _ | ⟨x2, _ | ⟨x3, _ | ⟨x4, _ | ⟨x5, r⟩⟩⟩⟩⟩
    · exact absurd hx (by simp [extractAccounts])
    · exact absurd hx (by simp [extractAccounts])
    · exact absurd hx (by simp [extractAccounts])
    · exact absurd hx (by simp [extractAccounts])
    · exact absurd hx (by simp [extractAccounts])
    have hx2 : (Except.ok (x1, x2, x3, x4, x5) :
        Except ProgramError
          (AccountInfo × AccountInfo × AccountInfo × AccountInfo × AccountInfo))
        = .ok (s, m, d, a, t) := hx
    simp only [Except.ok.injEq, Prod.mk.injEq] at hx2
    obtain ⟨rfl, rfl, rfl, rfl, rfl⟩ := hx2
    constructor
    · intro e hve
      obtain ⟨hne, rfl⟩ := validateAuthority_error pid x4 e hve
      simp [process_instruction, hne]
    · intro bump hvo
      obtain ⟨heq, rfl⟩ := validateAuthority_okk pid x4 bump hvo
      constructor
      · intro e hde
        rcases decodeInputs_error x1 x2 e hde with hsrc | ⟨hh, hsok, hmm⟩
        · simp [process_instruction, heq, hsrc]
        · simp [process_instruction, heq, hsok, hmm]
      · intro hh ms hdo
        obtain ⟨hsok, hmok⟩ := decodeInputs_okk x1 x2 hh ms hdo
        exact process_shape_ok pid x1 x2 x3 x4 x5 r data hh ms heq hsok hmok

/-- Witness for C7 (amended): on the example account set the extract,
validate and decode stages succeed in order and the handler returns the
stage-determined transfer request; and the empty set's failing invocation
leaves its (empty) account set unchanged. -/
theorem C7_linear_pipeline_w :
    process_instruction 11 [cs, cm, cd, ca, ct] []
      = .ok (transfer_checked ct.key cs.key cm.key cd.key ca.key 10000 9,
             [authoritySeed, [(find_program_address [authoritySeed] 11).2]]) ∧
    (runInvocation 9 ([] : List AccountInfo) []).1 = [] :=
  ⟨((((C7_linear_pipeline 11 [cs, cm, cd, ca, ct] []).2.1 cs cm cd ca ct
        (by decide)).2 (find_program_address [authoritySeed] 11).2
        (by decide)).2 ⟨cm.key, ca.key, 20000, 1⟩ ⟨9⟩ (by decide)),
   (C7_linear_pipeline 9 [] []).2.2 .notEnoughAccountKeys (by decide)⟩

lemma lookupData_strip (l : List AccountInfo) (k : Nat) :
    lookupData (stripSigners l) k = lookupData l k := by
  induction l with
  | nil => rfl
  | cons x rest ih =>
    simp only [stripSigners, List.map_cons, lookupData] at ih ⊢
    by_cases hk : x.key = k
    · simp [hk]
    · simp only [if_neg hk]
      exact ih

lemma adjustFirst_strip (l : List AccountInfo) (k : Nat) (f : Nat → Nat) :
    adjustFirst (stripSigners l) k f = stripSigners (adjustFirst l k f) := by
  induction l with
  | nil => rfl
  | cons x rest ih =>
    simp only [stripSigners, List.map_cons, adjustFirst] at ih ⊢
    by_cases hk : x.key = k
    · simp [hk]
    · simp only [if_neg hk, List.map_cons, List.cons.injEq, true_and]
      exact ih

lemma applyTransfer_strip (l : List AccountInfo) (src dst amount : Nat) :
    applyTransfer (stripSigners l) src dst amount
      = stripSigners (applyTransfer l src dst amount) := by
  unfold applyTransfer
  rw [adjustFirst_strip, adjustFirst_strip]

lemma process_strip (pid : Nat) (accounts : List AccountInfo)
    (data : List Nat) :
    process_instruction pid (stripSigners accounts) data
      = process_instruction pid accounts data := by
  rcases accounts with _ | ⟨s, _ | ⟨m, _ | ⟨d, _ | ⟨a, _ | ⟨t, r⟩⟩⟩⟩⟩
  · rfl
  · rfl
  · rfl
  · rfl
  · rfl
  · rfl

lemma checkTransfer_strip (pid : Nat) (l : List AccountInfo)
    (instr : TransferCheckedInstr) (seeds : List (List Nat)) :
    checkTransfer pid (stripSigners l) instr seeds
      = checkTransfer pid l instr seeds := by
  unfold checkTransfer
  rw [lookupData_strip, lookupData_strip, lookupData_strip]

/-- C10: authority validation is purely an address-equality check — the
handler never reads the transaction-signer flag of any supplied account.
Clearing every signer flag changes nothing: the handler's result, the
invocation's outcome, and the resulting account set (up to the cleared
flags) are identical, so an unsigned claimed-authority reference passes
validation whenever its address matches; delegation is carried solely by
the seed material presented to the service. -/
theorem C10_signer_flag_ignored (pid : Nat) (accounts : List AccountInfo)
    (data : List Nat) :
    process_instruction pid (stripSigners accounts) data
      = process_instruction pid accounts data ∧
    (runInvocation pid (stripSigners accounts) data).2
      = (runInvocation pid accounts data).2 ∧
    (runInvocation pid (stripSigners accounts) data).1
      = stripSigners (runInvocation pid accounts data).1 := by
  refine ⟨process_strip pid accounts data, ?_⟩
  cases hp : process_instruction pid accounts data with
  | error e =>
    have hp' : process_instruction pid (stripSigners accounts) data = .error e :=
      (process_strip pid accounts data).trans hp
    rw [runInvocation_err _ _ _ _ hp, runInvocation_err _ _ _ _ hp']
    exact ⟨rfl, rfl⟩
  | ok v =>
    obtain ⟨instr, seeds⟩ := v
    have hp' : process_instruction pid (stripSigners accounts) data
        = .ok (instr, seeds) := (process_strip pid accounts data).trans hp
    rw [runInvocation_ok _ _ _ _ _ hp, runInvocation_ok _ _ _ _ _ hp',
        checkTransfer_strip]
    cases checkTransfer pid accounts instr seeds with
    | some e => exact ⟨rfl, rfl⟩
    | none => exact ⟨rfl, applyTransfer_strip accounts _ _ _⟩

lemma denied_of_err (pid : Nat) (accounts : List AccountInfo) (data : List Nat)
    (e : ProgramError)
    (hp : process_instruction pid accounts data = .error e)
    (he : e = .invalidSeeds ∨ e = .invalidAccountData ∨
          e = .uninitializedAccount ∨ ∃ rr, e = .transferRejected rr) :
    denied (runInvocation pid accounts data) := by
  have hr : (runInvocation pid accounts data).2 = some e := by
    rw [runInvocation_err _ _ _ _ hp]
  unfold denied
  rcases he with h | h | h | ⟨rr, h⟩
  · exact .inl (by rw [hr, h])
  · exact .inr (.inl (by rw [hr, h]))
  · exact .inr (.inr (.inl (by rw [hr, h])))
  · exact .inr (.inr (.inr ⟨rr, by rw [hr, h]⟩))

lemma denied_of_check (pid : Nat) (accounts : List AccountInfo) (data : List Nat)
    (instr : TransferCheckedInstr) (seeds : List (List Nat)) (e : ProgramError)
    (hp : process_instruction pid accounts data = .ok (instr, seeds))
    (hc : checkTransfer pid accounts instr seeds = some e)
    (he : e = .invalidSeeds ∨ e = .invalidAccountData ∨
          e = .uninitializedAccount ∨ ∃ rr, e = .transferRejected rr) :
    denied (runInvocation pid accounts data) := by
  have hr : (runInvocation pid accounts data).2 = some e := by
    rw [runInvocation_ok _ _ _ _ _ hp, hc]
  unfold denied
  rcases he with h | h | h | ⟨rr, h⟩
  · exact .inl (by rw [hr, h])
  · exact .inr (.inl (by rw [hr, h]))
  · exact .inr (.inr (.inl (by rw [hr, h])))
  · exact .inr (.inr (.inr ⟨rr, by rw [hr, h]⟩))

/-- The outcome pattern the order-sensitivity property (as amended) asserts
for a well-formed, otherwise-succeeding account set: the set itself
succeeds; each of the nine swaps not exchanging source and destination is
denied (decode failure, invalid authority, or service rejection); and the
source-destination swap is either denied or silently succeeds, the latter
only when the destination holding is custodied by the derived authority
with a sufficient balance. -/
def swapOutcomes (pid : Nat) (s m d a t : AccountInfo) (data : List Nat)
    (dOwn dAmt : Nat) : Prop :=
  (runInvocation pid [s, m, d, a, t] data).2 = none ∧
  denied (runInvocation pid [m, s, d, a, t] data) ∧
  denied (runInvocation pid [a, m, d, s, t] data) ∧
  denied (runInvocation pid [t, m, d, a, s] data) ∧
  denied (runInvocation pid [s, d, m, a, t] data) ∧
  denied (runInvocation pid [s, a, d, m, t] data) ∧
  denied (runInvocation pid [s, t, d, a, m] data) ∧
  denied (runInvocation pid [s, m, a, d, t] data) ∧
  denied (runInvocation pid [s, m, t, a, d] data) ∧
  denied (runInvocation pid [s, m, d, t, a] data) ∧
  (denied (runInvocation pid [d, m, s, a, t] data) ∨
    ((runInvocation pid [d, m, s, a, t] data).2 = none ∧
     dOwn = a.key ∧ 10000 ≤ dAmt))

/-- Counterexample to C8 as stated: swapping two positions of an
otherwise-succeeding set can succeed silently.  With the destination holding
also custodied by the derived authority, exchanging source and destination
(positions 1 and 3) still succeeds, and the 10000 tokens flow into the
original source account (balance 20000 → 30000): the swapped semantics go
unnoticed. -/
theorem C8_silent_success_cx :
    (runInvocation 11 [cs, cm, cd, ca, ct] []).2 = none ∧
    (runInvocation 11 [cd, cm, cs, ca, ct] []).2 = none ∧
    balanceOf [cs, cm, cd, ca, ct] 1 = some 20000 ∧
    balanceOf (runInvocation 11 [cd, cm, cs, ca, ct] []).1 1 = some 30000 := by
  decide

/-- C8 as amended: for a well-formed, otherwise-succeeding account set with
five distinct addresses, swapping any two positions yields a decode failure,
the invalid-authority rejection, or a service rejection — except the
source-destination swap, which can also succeed silently with the transfer
direction reversed, and does so only when the destination holding is itself
custodied by the derived authority and holds a sufficient balance. -/
theorem C8_swap_sensitivity (pid : Nat) (s m d a t : AccountInfo)
    (data : List Nat) (amt dec dOwn dAmt : Nat)
    (ha : a.key = (find_program_address [authoritySeed] pid).1)
    (hs : unpackHolding s.data = .ok ⟨m.key, a.key, amt, 1⟩)
    (hamt : 10000 ≤ amt)
    (hm : unpackMint m.data = .ok ⟨dec⟩)
    (hd : unpackHolding d.data = .ok ⟨m.key, dOwn, dAmt, 1⟩)
    (ht : t.key = tokenServiceId)
    (hsm : s.key ≠ m.key) (hsd : s.key ≠ d.key) (hsa : s.key ≠ a.key)
    (hst : s.key ≠ t.key) (hmd : m.key ≠ d.key) (hma : m.key ≠ a.key)
    (hmt : m.key ≠ t.key) (hda : d.key ≠ a.key) (hdt : d.key ≠ t.key)
    (hta : a.key ≠ t.key) :
    swapOutcomes pid s m d a t data dOwn dAmt := by
  have hfa : (find_program_address [authoritySeed] pid).1 = a.key := ha.symm
  have hms : m.key ≠ s.key := Ne.symm hsm
  have hds : d.key ≠ s.key := Ne.symm hsd
  have hdm : d.key ≠ m.key := Ne.symm hmd
  have hnamt : ¬ (amt < 10000) := Nat.not_lt.mpr hamt
  refine ⟨?_, ?_, ?_, ?_, ?_, ?_, ?_, ?_, ?_, ?_, ?_⟩
  · -- the unswapped set succeeds
    have hp := process_shape_ok pid s m d a t [] data ⟨m.key, a.key, amt, 1⟩
      ⟨dec⟩ hfa hs hm
    have hc : checkTransfer pid [s, m, d, a, t]
        (transfer_checked t.key s.key m.key d.key a.key 10000 dec)
        [authoritySeed, [(find_program_address [authoritySeed] pid).2]]
        = none := by
      simp [checkTransfer, transfer_checked, create_fpa, hfa, ht, lookupData,
            hsm, hms, hsd, hds, hmd, hdm, hs, hm, hd, hnamt]
    rw [runInvocation_ok _ _ _ _ _ hp, hc]
  · -- swap source and token class
    have hrc : unpackHolding m.data = .error .invalidAccountData :=
      unpackHolding_wrong_len _
        (by have := unpackMint_ok_length _ _ hm; omega)
    exact denied_of_err pid _ data .invalidAccountData
      (by simp [process_instruction, hfa, hrc]) (.inr (.inl rfl))
  · -- swap source and authority
    have hx : (find_program_address [authoritySeed] pid).1 ≠ s.key := by
      rw [hfa]; exact Ne.symm hsa
    exact denied_of_err pid _ data .invalidSeeds
      (by simp [process_instruction, hx]) (.inl rfl)
  · -- swap source and service reference
    cases hts : unpackHolding t.data with
    | error e2 =>
      refine denied_of_err pid _ data e2
        (by simp [process_instruction, hfa, hts]) ?_
      rcases unpackHolding_error_cases _ _ hts with h | h
      · exact .inr (.inl h)
      · exact .inr (.inr (.inl h))
    | ok th =>
      have hp := process_shape_ok pid t m d a s [] data th ⟨dec⟩ hfa hts hm
      have hstne : s.key ≠ tokenServiceId := by rw [← ht]; exact hst
      exact denied_of_check pid _ data _ _
        (.transferRejected .wrongOwningService) hp
        (by simp [checkTransfer, transfer_checked, hstne])
        (.inr (.inr (.inr ⟨_, rfl⟩)))
  · -- swap token class and destination
    have hmc : unpackMint d.data = .error .invalidAccountData :=
      unpackMint_wrong_len _
        (by have := unpackHolding_ok_length _ _ hd; omega)
    exact denied_of_err pid _ data .invalidAccountData
      (by simp [process_instruction, hfa, hs, hmc]) (.inr (.inl rfl))
  · -- swap token class and authority
    have hx : (find_program_address [authoritySeed] pid).1 ≠ m.key := by
      rw [hfa]; exact Ne.symm hma
    exact denied_of_err pid _ data .invalidSeeds
      (by simp [process_instruction, hx]) (.inl rfl)
  · -- swap token class and service reference
    cases htm : unpackMint t.data with
    | error e2 =>
      refine denied_of_err pid _ data e2
        (by simp [process_instruction, hfa, hs, htm]) ?_
      rcases unpackMint_error_cases _ _ htm with h | h
      · exact .inr (.inl h)
      · exact .inr (.inr (.inl h))
    | ok tm2 =>
      have hp := process_shape_ok pid s t d a m [] data ⟨m.key, a.key, amt, 1⟩
        tm2 hfa hs htm
      have hmtne : m.key ≠ tokenServiceId := by rw [← ht]; exact hmt
      exact denied_of_check pid _ data _ _
        (.transferRejected .wrongOwningService) hp
        (by simp [checkTransfer, transfer_checked, hmtne])
        (.inr (.inr (.inr ⟨_, rfl⟩)))
  · -- swap destination and authority
    have hx : (find_program_address [authoritySeed] pid).1 ≠ d.key := by
      rw [hfa]; exact Ne.symm hda
    exact denied_of_err pid _ data .invalidSeeds
      (by simp [process_instruction, hx]) (.inl rfl)
  · -- swap destination and service reference
    have hp := process_shape_ok pid s m t a d [] data ⟨m.key, a.key, amt, 1⟩
      ⟨dec⟩ hfa hs hm
    have hdtne : d.key ≠ tokenServiceId := by rw [← ht]; exact hdt
    exact denied_of_check pid _ data _ _
      (.transferRejected .wrongOwningService) hp
      (by simp [checkTransfer, transfer_checked, hdtne])
      (.inr (.inr (.inr ⟨_, rfl⟩)))
  · -- swap authority and service reference
    have hx : (find_program_address [authoritySeed] pid).1 ≠ t.key := by
      rw [hfa]; exact hta
    exact denied_of_err pid _ data .invalidSeeds
      (by simp [process_instruction, hx]) (.inl rfl)
  · -- swap source and destination
    have hp := process_shape_ok pid d m s a t [] data ⟨m.key, dOwn, dAmt, 1⟩
      ⟨dec⟩ hfa hd hm
    by_cases hdo : dOwn = a.key
    · by_cases hbl : dAmt < 10000
      · left
        exact denied_of_check pid _ data _ _
          (.transferRejected .insufficientBalance) hp
          (by simp [checkTransfer, transfer_checked, create_fpa, hfa, ht,
                lookupData, hdm, hds, hms, hs, hm, hd, hdo, hbl])
          (.inr (.inr (.inr ⟨_, rfl⟩)))
      · right
        have hc : checkTransfer pid [d, m, s, a, t]
            (transfer_checked t.key d.key m.key s.key a.key 10000 dec)
            [authoritySeed, [(find_program_address [authoritySeed] pid).2]]
            = none := by
          simp [checkTransfer, transfer_checked, create_fpa, hfa, ht,
                lookupData, hdm, hds, hms, hs, hm, hd, hdo, hbl]
        exact ⟨by rw [runInvocation_ok _ _ _ _ _ hp, hc], hdo,
               Nat.le_of_not_lt hbl⟩
    · left
      exact denied_of_check pid _ data _ _
        (.transferRejected .ownerMismatch) hp
        (by simp [checkTransfer, transfer_checked, create_fpa, hfa, ht,
              lookupData, hdm, hds, hms, hs, hm, hd, hdo])
        (.inr (.inr (.inr ⟨_, rfl⟩)))

/-- Witness for C8 (amended) at the concrete example set: Handler
Identity 11, all hypotheses hold, and the source-destination swap falls in
the silent-success branch. -/
theorem C8_swap_sensitivity_w : swapOutcomes 11 cs cm cd ca ct [] cKey 20000 :=
  C8_swap_sensitivity 11 cs cm cd ca ct [] 20000 9 cKey 20000
    (by decide) (by decide) (by decide) (by decide) (by decide) (by decide)
    (by decide) (by decide) (by decide) (by decide) (by decide) (by decide)
    (by decide) (by decide) (by decide) (by decide)

/-- C9: the instruction-data payload is accepted but unused — two invocations
agreeing on the program id and the account references but with arbitrarily
different instruction data produce the identical handler result and the
identical full invocation outcome. -/
theorem C9_data_unused (pid : Nat) (accounts : List AccountInfo)
    (d₁ d₂ : List Nat) :
    process_instruction pid accounts d₁ = process_instruction pid accounts d₂ ∧
    runInvocation pid accounts d₁ = runInvocation pid accounts d₂ :=
  ⟨rfl, rfl⟩

end SolanaTransfer
